import Mathlib

/-!
Shallow embedding of the validation and custom-property logic of the
datacontract-editor excerpt:

* `ValidatedInput` (src/unnamed/part_000): per-field validation checks
  (required / pattern / minLength / maxLength / minimum / maximum),
  the error-message list, and the aria attributes it renders.
* `ValidatedTextarea` (src/components/ui/ValidatedTextarea.jsx): the
  required / minLength / maxLength checks and the same aria attributes.
* `TermsOfUse` (src/routes/TermsOfUse.jsx): `customPropertiesLookup`
  (array-of-items to keyed lookup) and `updateCustomProperty`
  (set/delete on the stored custom-property collection).

JavaScript values that flow through these functions are modelled by
`JSVal` (undefined, null, string, integer number); JS objects, whose keys
are insertion-ordered and unique, are modelled as ordered association
lists.
-/

set_option autoImplicit false

namespace DCEditor

/-- Model of the JS values the components receive: `undefined`, `null`,
strings, and (integer) numbers. -/
inductive JSVal where
  | undef
  | nullV
  | str (s : String)
  | num (n : Int)
  deriving DecidableEq, Repr

/-- JS truthiness for `JSVal`: `undefined`, `null`, the empty string and
`0` are falsy. -/
def truthy : JSVal → Bool
  | .undef => false
  | .nullV => false
  | .str s => s ≠ ""
  | .num n => n ≠ 0

/-- Whether `typeof value === 'string'`. -/
def JSVal.isStr : JSVal → Bool
  | .str _ => true
  | _ => false

/-- JS `value.toString()` / string coercion for the values of `JSVal`. -/
def jsToString : JSVal → String
  | .undef => "undefined"
  | .nullV => "null"
  | .str s => s
  | .num n => toString n

/-- Strip leading and trailing whitespace from a character list. -/
def trimChars (l : List Char) : List Char :=
  ((l.dropWhile Char.isWhitespace).reverse.dropWhile Char.isWhitespace).reverse

/-- Model of JS `String.prototype.trim` (structurally recursive, so that
concrete instances reduce in the kernel). -/
def jsTrim (s : String) : String :=
  String.mk (trimChars s.data)

/-- Parse a non-empty all-digit character list as a natural number. -/
def digitsToNat? (l : List Char) : Option Nat :=
  if l ≠ [] ∧ l.all Char.isDigit then
    some (l.foldl (fun n c => n * 10 + (c.toNat - 48)) 0)
  else none

/-- Integer fragment of the JS `Number(string)` coercion: the string is
trimmed; a whitespace-only string coerces to `0`, an optionally signed
digit string parses as an integer, and anything else is NaN (`none`). -/
def jsNumberOfString (s : String) : Option Int :=
  match trimChars s.data with
  | [] => some 0
  | '-' :: rest => (digitsToNat? rest).map (fun n => -(n : Int))
  | '+' :: rest => (digitsToNat? rest).map (fun n => (n : Int))
  | l => (digitsToNat? l).map (fun n => (n : Int))

/-- Host environment for the `new RegExp(pattern)` primitive:
`regexCompile pat` is `none` when the constructor throws on `pat`, and
otherwise `some test` where `test v` is `new RegExp(pat).test(v)`. -/
structure RegexEnv where
  regexCompile : String → Option (String → Bool)

/-- Validation-relevant props of `ValidatedInput` (src/unnamed/part_000).
Presentation-only props (label, tooltip, placeholder, className, onChange,
validationKey, validationSection) play no part in the validation logic and
are omitted. `none` on an optional field models an absent (undefined)
prop; defaults follow the component's destructuring defaults. -/
structure InputProps where
  name : String
  value : JSVal
  required : Bool := false
  externalErrors : List String := []
  pattern : Option String := none
  patternMessage : Option String := none
  minLength : Option Int := none
  maxLength : Option Int := none
  minimum : Option Int := none
  maximum : Option Int := none
  skipInternalValidation : Bool := false

/-- Truthiness of an optional string prop (an absent or empty-string
`pattern` / `patternMessage` is falsy). -/
def optStrTruthy : Option String → Bool
  | some s => s ≠ ""
  | none => false

/-- Line 34: `!skipInternalValidation && required && (!value || value.toString().trim() === '')`. -/
def hasInternalError (p : InputProps) : Bool :=
  !p.skipInternalValidation && p.required &&
    (!truthy p.value || jsTrim (jsToString p.value) = "")

/-- Lines 37-43: the pattern check. The guard requires a truthy `pattern`,
a truthy string `value` whose trim is non-empty; the try/catch around
`new RegExp(pattern)` yields `false` when compilation throws. -/
def hasPatternError (env : RegexEnv) (p : InputProps) : Bool :=
  !p.skipInternalValidation && optStrTruthy p.pattern && truthy p.value &&
    p.value.isStr && jsTrim (jsToString p.value) ≠ "" &&
    (match p.pattern with
     | some pat =>
       match env.regexCompile pat with
       | some test => !test (jsToString p.value)
       | none => false
     | none => false)

/-- Line 46: `value && typeof value === 'string' ? value.trim() : ''`. -/
def trimmedValue (p : InputProps) : String :=
  if truthy p.value && p.value.isStr then jsTrim (jsToString p.value) else ""

/-- Line 47: the minLength check. -/
def hasMinLengthError (p : InputProps) : Bool :=
  !p.skipInternalValidation &&
    (match p.minLength with
     | some m => trimmedValue p ≠ "" && ((trimmedValue p).length : Int) < m
     | none => false)

/-- Line 48: the maxLength check. -/
def hasMaxLengthError (p : InputProps) : Bool :=
  !p.skipInternalValidation &&
    (match p.maxLength with
     | some m => trimmedValue p ≠ "" && ((trimmedValue p).length : Int) > m
     | none => false)

/-- Line 51: `value !== undefined && value !== null && value !== '' ? Number(value) : NaN`
(`none` models NaN). -/
def numericValue (p : InputProps) : Option Int :=
  match p.value with
  | .undef => none
  | .nullV => none
  | .str s => if s = "" then none else jsNumberOfString s
  | .num n => some n

/-- Line 52: the minimum check. -/
def hasMinimumError (p : InputProps) : Bool :=
  !p.skipInternalValidation &&
    (match p.minimum, numericValue p with
     | some m, some nv => nv < m
     | _, _ => false)

/-- Line 53: the maximum check. -/
def hasMaximumError (p : InputProps) : Bool :=
  !p.skipInternalValidation &&
    (match p.maximum, numericValue p with
     | some m, some nv => nv > m
     | _, _ => false)

/-- Line 61: `patternMessage || \x7bValue must match pattern: ${pattern}\x7d`. -/
def patternErrorMessage (p : InputProps) : String :=
  match p.patternMessage with
  | some m => if m ≠ "" then m else "Value must match pattern: " ++ (match p.pattern with | some s => s | none => "undefined")
  | none => "Value must match pattern: " ++ (match p.pattern with | some s => s | none => "undefined")

/-- Lines 56-75: the error-message array, built by the source's sequence of
conditional pushes followed by spreading `externalErrors`. -/
def errorMessages (env : RegexEnv) (p : InputProps) : List String :=
  let msgs : List String := []
  let msgs := if hasInternalError p then msgs ++ ["This field is required"] else msgs
  let msgs := if hasPatternError env p then msgs ++ [patternErrorMessage p] else msgs
  let msgs := if hasMinLengthError p then
    msgs ++ ["Minimum length is " ++ (match p.minLength with | some m => toString m | none => "undefined") ++ " (currently " ++ toString (trimmedValue p).length ++ ")"] else msgs
  let msgs := if hasMaxLengthError p then
    msgs ++ ["Maximum length is " ++ (match p.maxLength with | some m => toString m | none => "undefined") ++ " (currently " ++ toString (trimmedValue p).length ++ ")"] else msgs
  let msgs := if hasMinimumError p then
    msgs ++ ["Minimum value is " ++ (match p.minimum with | some m => toString m | none => "undefined")] else msgs
  let msgs := if hasMaximumError p then
    msgs ++ ["Maximum value is " ++ (match p.maximum with | some m => toString m | none => "undefined")] else msgs
  msgs ++ p.externalErrors

/-- Line 77: `errorMessages.length > 0`. -/
def hasError (env : RegexEnv) (p : InputProps) : Bool :=
  (errorMessages env p).length > 0

/-- Line 108: the `aria-invalid` attribute of the rendered input. -/
def ariaInvalid (env : RegexEnv) (p : InputProps) : Bool :=
  hasError env p

/-- Line 109: `aria-describedby={hasError ? \x7b${name}-error\x7d : undefined}`. -/
def ariaDescribedby (env : RegexEnv) (p : InputProps) : Option String :=
  if hasError env p then some (p.name ++ "-error") else none

/-! ### ValidatedTextarea (src/components/ui/ValidatedTextarea.jsx) -/

/-- Validation-relevant props of `ValidatedTextarea`. Its `value` prop is
an optional string (`none` models an absent value); presentation-only
props are omitted as for `InputProps`. -/
structure TextareaProps where
  name : String
  value : Option String := none
  required : Bool := false
  minLength : Option Int := none
  maxLength : Option Int := none

/-- Lines 23-24: `const strValue = value || ''; const trimmed = strValue.trim();`. -/
def taTrimmed (p : TextareaProps) : String :=
  jsTrim (match p.value with | some s => s | none => "")

/-- Lines 26-35: the textarea's error-message array (required, minLength,
maxLength pushes in order). -/
def taErrorMessages (p : TextareaProps) : List String :=
  let msgs : List String := []
  let msgs := if p.required && taTrimmed p = "" then msgs ++ ["This field is required"] else msgs
  let msgs := if taTrimmed p ≠ "" &&
      (match p.minLength with | some m => ((taTrimmed p).length : Int) < m | none => false) then
    msgs ++ ["Minimum length is " ++ (match p.minLength with | some m => toString m | none => "undefined") ++ " (currently " ++ toString (taTrimmed p).length ++ ")"] else msgs
  let msgs := if taTrimmed p ≠ "" &&
      (match p.maxLength with | some m => ((taTrimmed p).length : Int) > m | none => false) then
    msgs ++ ["Maximum length is " ++ (match p.maxLength with | some m => toString m | none => "undefined") ++ " (currently " ++ toString (taTrimmed p).length ++ ")"] else msgs
  msgs

/-- Line 37: `errorMessages.length > 0`. -/
def taHasError (p : TextareaProps) : Bool :=
  (taErrorMessages p).length > 0

/-- Line 71: the `aria-invalid` attribute of the rendered textarea. -/
def taAriaInvalid (p : TextareaProps) : Bool :=
  taHasError p

/-- Line 72: `aria-describedby={hasError ? \x7b${name}-error\x7d : undefined}`. -/
def taAriaDescribedby (p : TextareaProps) : Option String :=
  if taHasError p then some (p.name ++ "-error") else none

/-! ### TermsOfUse custom properties (src/routes/TermsOfUse.jsx) -/

/-- One element of the stored `customProperties` array: an object with a
`property` field (which may be absent: `none`) and a `value` field. A
null array element behaves like one with an absent `property` under the
source's `item?.property` access and is modelled the same way. -/
structure CPItem where
  property : Option String
  value : JSVal
  deriving DecidableEq, Repr

/-- A JS object as an insertion-ordered association list. Real JS objects
have pairwise-distinct keys; theorems that need this state it as a
`Nodup` hypothesis on the mapped keys. -/
abbrev JSObject := List (String × JSVal)

/-- The shapes `description?.customProperties` can take: an array of
items, a keyed object, or absent (`undefined`/`null`). -/
inductive CustomPropsVal where
  | arr (items : List CPItem)
  | obj (o : JSObject)
  | undefOrNull
  deriving DecidableEq, Repr

/-- JS property assignment `acc[k] = v` on an insertion-ordered object:
an existing key keeps its position and gets the new value; a fresh key is
appended at the end. -/
def objSet : JSObject → String → JSVal → JSObject
  | [], k, v => [(k, v)]
  | (k', v') :: rest, k, v =>
    if k' = k then (k, v) :: rest else (k', v') :: objSet rest k v

/-- Property read `o[k]` returning `none` when the key is absent. -/
def objGet (o : JSObject) (k : String) : Option JSVal :=
  (o.find? (fun kv => kv.1 = k)).map (fun kv => kv.2)

/-- Lines 33-42: `customPropertiesLookup`. A non-array input is returned
as `props || \x7b\x7d`; an array is reduced with
`if (item?.property !== undefined) acc[item.property] = item.value`. -/
def customPropertiesLookup : CustomPropsVal → JSObject
  | .arr items =>
    items.foldl
      (fun acc item =>
        match item.property with
        | some k => objSet acc k item.value
        | none => acc)
      []
  | .obj o => o
  | .undefOrNull => []

/-- Line 51: `Object.entries(currentProps).map(([k, v]) => ({ property: k, value: v }))`. -/
def entriesToArray (o : JSObject) : List CPItem :=
  o.map (fun kv => { property := some kv.1, value := kv.2 })

/-- Lines 47-54: normalization of the current `customProperties` value to
an array inside `updateCustomProperty`. -/
def toCurrentArray : CustomPropsVal → List CPItem
  | .arr items => items
  | .obj o => entriesToArray o
  | .undefOrNull => []

/-- JS `Array.prototype.findIndex` (with `none` in place of `-1`). -/
def jsFindIndex {α : Type} (p : α → Bool) : List α → Option Nat
  | [] => none
  | a :: l => if p a then some 0 else (jsFindIndex p l).map (fun i => i + 1)

/-- Lines 45-68: `updateCustomProperty(property, value)`. The result is
the value stored at `description.customProperties`: `none` models storing
`undefined` (deleting the key), `some l` models storing the array `l`.
Passing `value === undefined` deletes; otherwise the first item whose
`property` strictly equals the name is replaced in place, or a new item
is appended. -/
def updateCustomProperty (cur : CustomPropsVal) (property : String) (value : JSVal) :
    Option (List CPItem) :=
  let currentArray := toCurrentArray cur
  if value = .undef then
    let updated := currentArray.filter (fun item => !(item.property = some property : Bool))
    if updated.length > 0 then some updated else none
  else
    match jsFindIndex (fun item => item.property = some property) currentArray with
    | some i => some (currentArray.set i { property := some property, value := value })
    | none => some (currentArray ++ [{ property := some property, value := value }])

/-! ### Spec-side description of the error list -/

/-- Modelled from the spec: the flat validation-error list, as section 3
and the claim describe it — the required, pattern, min-length, max-length,
minimum-value and maximum-value checks contribute their messages in that
order, followed by the caller-supplied external errors appended unchanged.
Stated as a plain concatenation, to be compared with the source's
push-sequence `errorMessages`. -/
def specValidationErrorList (env : RegexEnv) (p : InputProps) : List String :=
  (if hasInternalError p then ["This field is required"] else []) ++
  (if hasPatternError env p then [patternErrorMessage p] else []) ++
  (if hasMinLengthError p then
    ["Minimum length is " ++ (match p.minLength with | some m => toString m | none => "undefined") ++ " (currently " ++ toString (trimmedValue p).length ++ ")"] else []) ++
  (if hasMaxLengthError p then
    ["Maximum length is " ++ (match p.maxLength with | some m => toString m | none => "undefined") ++ " (currently " ++ toString (trimmedValue p).length ++ ")"] else []) ++
  (if hasMinimumError p then
    ["Minimum value is " ++ (match p.minimum with | some m => toString m | none => "undefined")] else []) ++
  (if hasMaximumError p then
    ["Maximum value is " ++ (match p.maximum with | some m => toString m | none => "undefined")] else []) ++
  p.externalErrors

/-! ### Helper lemmas -/

theorem trimmedValue_eq_empty_of_trim_empty (p : InputProps) (s : String)
    (hv : p.value = .str s) (h : jsTrim s = "") : trimmedValue p = "" := by
  simp only [trimmedValue, hv, jsToString]
  split <;> simp [h]

theorem hasMinLengthError_of_trimmed_empty (p : InputProps)
    (h : trimmedValue p = "") : hasMinLengthError p = false := by
  unfold hasMinLengthError
  cases p.minLength <;> simp [h]

theorem hasMaxLengthError_of_trimmed_empty (p : InputProps)
    (h : trimmedValue p = "") : hasMaxLengthError p = false := by
  unfold hasMaxLengthError
  cases p.maxLength <;> simp [h]

theorem hasPatternError_of_trim_empty (env : RegexEnv) (p : InputProps) (s : String)
    (hv : p.value = .str s) (h : jsTrim s = "") : hasPatternError env p = false := by
  unfold hasPatternError
  simp [hv, jsToString, h]

theorem hasMinimumError_of_nan (p : InputProps)
    (h : numericValue p = none) : hasMinimumError p = false := by
  unfold hasMinimumError
  rw [h]
  cases p.minimum <;> simp

theorem hasMaximumError_of_nan (p : InputProps)
    (h : numericValue p = none) : hasMaximumError p = false := by
  unfold hasMaximumError
  rw [h]
  cases p.maximum <;> simp

theorem hasMinimumError_of_no_min (p : InputProps)
    (h : p.minimum = none) : hasMinimumError p = false := by
  unfold hasMinimumError
  rw [h]
  cases numericValue p <;> simp

theorem hasMaximumError_of_no_max (p : InputProps)
    (h : p.maximum = none) : hasMaximumError p = false := by
  unfold hasMaximumError
  rw [h]
  cases numericValue p <;> simp

theorem hasPatternError_of_not_truthy (env : RegexEnv) (p : InputProps)
    (h : truthy p.value = false) : hasPatternError env p = false := by
  unfold hasPatternError
  simp [h]

theorem errorMessages_of_checks (env : RegexEnv) (p : InputProps)
    (h1 : hasInternalError p = true) (h2 : hasPatternError env p = false)
    (h3 : hasMinLengthError p = false) (h4 : hasMaxLengthError p = false)
    (h5 : hasMinimumError p = false) (h6 : hasMaximumError p = false)
    (h7 : p.externalErrors = []) :
    errorMessages env p = ["This field is required"] := by
  simp [errorMessages, h1, h2, h3, h4, h5, h6, h7]

theorem objSet_of_not_mem (acc : JSObject) (k : String) (v : JSVal)
    (h : k ∉ acc.map Prod.fst) : objSet acc k v = acc ++ [(k, v)] := by
  induction acc with
  | nil => rfl
  | cons kv rest ih =>
    obtain ⟨k', v'⟩ := kv
    simp only [List.map_cons, List.mem_cons] at h
    push_neg at h
    unfold objSet
    rw [if_neg (fun hkk => h.1 hkk.symm), ih h.2]
    rfl

theorem lookup_foldl_entries (pl : List (String × JSVal)) :
    ∀ acc : JSObject, (pl.map Prod.fst).Nodup →
      (∀ k ∈ pl.map Prod.fst, k ∉ acc.map Prod.fst) →
      List.foldl
        (fun acc item =>
          match item.property with
          | some k => objSet acc k item.value
          | none => acc)
        acc (entriesToArray pl) = acc ++ pl := by
  induction pl with
  | nil =>
    intro acc _ _
    simp [entriesToArray]
  | cons kv rest ih =>
    intro acc hnd hdis
    obtain ⟨k, v⟩ := kv
    simp only [List.map_cons, List.nodup_cons] at hnd
    have hk : k ∉ acc.map Prod.fst := hdis k (by simp)
    simp only [entriesToArray, List.map_cons, List.foldl_cons]
    rw [objSet_of_not_mem acc k v hk]
    have hres := ih (acc ++ [(k, v)]) hnd.2 (by
      intro k' hk'
      simp only [List.map_append, List.mem_append, List.map_cons, List.map_nil,
        List.mem_singleton]
      push_neg
      exact ⟨hdis k' (by simp [hk']), fun hkk => hnd.1 (hkk ▸ hk')⟩)
    rw [show entriesToArray rest = rest.map (fun kv => (⟨some kv.1, kv.2⟩ : CPItem)) from rfl] at hres
    rw [hres, List.append_assoc]
    rfl

theorem lookup_entriesToArray (o : JSObject) (h : (o.map Prod.fst).Nodup) :
    customPropertiesLookup (.arr (entriesToArray o)) = o := by
  simp only [customPropertiesLookup]
  rw [lookup_foldl_entries o [] h (by simp)]
  rfl

theorem objGet_of_mem_nodup {o : JSObject} {k : String} {v : JSVal}
    (hnd : (o.map Prod.fst).Nodup) (hm : (k, v) ∈ o) : objGet o k = some v := by
  induction o with
  | nil => cases hm
  | cons kv rest ih =>
    obtain ⟨k', v'⟩ := kv
    simp only [List.map_cons, List.nodup_cons] at hnd
    rcases List.mem_cons.mp hm with heq | hmt
    · cases heq
      simp [objGet, List.find?_cons]
    · have hne : k' ≠ k := by
        intro hkk
        exact hnd.1 (hkk ▸ (List.mem_map.mpr ⟨(k, v), hmt, rfl⟩))
      unfold objGet at ih ⊢
      simp only [List.find?_cons, decide_eq_false hne]
      exact ih hnd.2 hmt

theorem jsFindIndex_eq_none {α : Type} (pred : α → Bool) :
    ∀ l : List α, jsFindIndex pred l = none → ∀ a ∈ l, pred a = false := by
  intro l
  induction l with
  | nil => intro _ a ha; cases ha
  | cons b t ih =>
    intro h a ha
    unfold jsFindIndex at h
    by_cases hp : pred b = true
    · rw [if_pos hp] at h
      cases h
    · rw [if_neg hp] at h
      rcases List.mem_cons.mp ha with rfl | hat
      · exact Bool.eq_false_iff.mpr hp
      · exact ih (Option.map_eq_none'.mp h) a hat

theorem jsFindIndex_eq_some {α : Type} (pred : α → Bool) :
    ∀ (l : List α) (i : Nat), jsFindIndex pred l = some i →
      ∃ h : i < l.length, pred (l.get ⟨i, h⟩) = true := by
  intro l
  induction l with
  | nil => intro i h; cases h
  | cons b t ih =>
    intro i h
    unfold jsFindIndex at h
    by_cases hp : pred b = true
    · rw [if_pos hp] at h
      cases h
      exact ⟨Nat.succ_pos _, hp⟩
    · rw [if_neg hp] at h
      rcases Option.map_eq_some'.mp h with ⟨j, hj, rfl⟩
      obtain ⟨hlt, hpred⟩ := ih j hj
      exact ⟨Nat.succ_lt_succ hlt, by simpa using hpred⟩

theorem filter_set_not_kept (keep : CPItem → Bool) :
    ∀ (l : List CPItem) (i : Nat) (b : CPItem) (h : i < l.length),
      keep (l.get ⟨i, h⟩) = false → keep b = false →
      (l.set i b).filter keep = l.filter keep := by
  intro l
  induction l with
  | nil => intro i b h; exact absurd h (Nat.not_lt_zero i)
  | cons a t ih =>
    intro i b h hk hb
    cases i with
    | zero =>
      simp only [List.get] at hk
      simp [List.filter_cons, hk, hb]
    | succ j =>
      have h' : j < t.length := Nat.lt_of_succ_lt_succ h
      have hk' : keep (t.get ⟨j, h'⟩) = false := by simpa using hk
      cases hka : keep a <;>
        simp [List.set_cons_succ, List.filter_cons, hka, ih j b h' hk' hb]

theorem updateCustomProperty_delete_eq (cur : CustomPropsVal) (pname : String) :
    updateCustomProperty cur pname .undef =
      (if ((toCurrentArray cur).filter (fun item => !(item.property = some pname : Bool))).length > 0
       then some ((toCurrentArray cur).filter (fun item => !(item.property = some pname : Bool)))
       else none) := rfl

theorem updateCustomProperty_set_eq (cur : CustomPropsVal) (pname : String) (v : JSVal)
    (hv : v ≠ .undef) :
    updateCustomProperty cur pname v =
      (match jsFindIndex (fun item => (item.property = some pname : Bool)) (toCurrentArray cur) with
       | some i => some ((toCurrentArray cur).set i ⟨some pname, v⟩)
       | none => some (toCurrentArray cur ++ [⟨some pname, v⟩])) := by
  unfold updateCustomProperty
  rw [if_neg hv]

/-! ### Claim theorems -/

/-- C2: for every regex environment and every combination of props to
`ValidatedInput`, the rendered validation-error list is exactly the flat
list derived from the optional constraints — required, pattern,
min-length, max-length, minimum-value, maximum-value, in that order —
followed by the caller-supplied `externalErrors` appended unchanged; no
other messages appear. -/
theorem validatedInput_error_list_exact (env : RegexEnv) (p : InputProps) :
    errorMessages env p = specValidationErrorList env p := by
  unfold errorMessages specValidationErrorList
  cases hasInternalError p <;> cases hasPatternError env p <;>
    cases hasMinLengthError p <;> cases hasMaxLengthError p <;>
    cases hasMinimumError p <;> cases hasMaximumError p <;> simp

/-- C4: when compiling the `pattern` prop as a regular expression throws
(the environment's `regexCompile` returns `none`), the pattern check
reports no error, and the whole error list is the one of the same props
with no pattern at all — the error branch of the RegExp construction is
caught and treated as no error, so rendering is the same total function
as without the pattern. -/
theorem malformed_pattern_no_error (env : RegexEnv) (p : InputProps) (s : String)
    (hp : p.pattern = some s) (hc : env.regexCompile s = none) :
    hasPatternError env p = false ∧
      errorMessages env p = errorMessages env { p with pattern := none } := by
  have h1 : hasPatternError env p = false := by
    unfold hasPatternError
    simp [hp, hc]
  have h2 : hasPatternError env { p with pattern := none } = false := by
    unfold hasPatternError
    simp [optStrTruthy]
  refine ⟨h1, ?_⟩
  unfold errorMessages
  simp only [h1, h2]
  rfl

/-- C4 witness: a concretely malformed pattern (an environment whose
RegExp constructor throws on it) yields no pattern error and the same
error list as the pattern-free props. -/
theorem malformed_pattern_no_error_witness :
    hasPatternError (RegexEnv.mk (fun _ => none))
        { name := "f", value := .str "abc", pattern := some "(" } = false ∧
      errorMessages (RegexEnv.mk (fun _ => none))
          { name := "f", value := .str "abc", pattern := some "(" } =
        errorMessages (RegexEnv.mk (fun _ => none))
          { name := "f", value := .str "abc", pattern := none } :=
  malformed_pattern_no_error (RegexEnv.mk (fun _ => none))
    { name := "f", value := .str "abc", pattern := some "(" } "(" rfl rfl

/-- C7: for every props combination, the rendered control carries
`aria-invalid` exactly when the computed error-message list is non-empty,
and `aria-describedby` is `name ++ "-error"` exactly when that list is
non-empty (`undefined` otherwise) — for `ValidatedInput` and for
`ValidatedTextarea`. -/
theorem aria_attributes_track_errors (env : RegexEnv) (p : InputProps) (q : TextareaProps) :
    (ariaInvalid env p = true ↔ errorMessages env p ≠ []) ∧
      ariaDescribedby env p =
        (if errorMessages env p ≠ [] then some (p.name ++ "-error") else none) ∧
      (taAriaInvalid q = true ↔ taErrorMessages q ≠ []) ∧
      taAriaDescribedby q =
        (if taErrorMessages q ≠ [] then some (q.name ++ "-error") else none) := by
  constructor
  · simp [ariaInvalid, hasError, List.length_pos]
  constructor
  · simp only [ariaDescribedby, hasError]
    by_cases h : errorMessages env p = []
    · simp [h]
    · simp [h, List.length_pos.mpr h]
  constructor
  · simp [taAriaInvalid, taHasError, List.length_pos]
  · simp only [taAriaDescribedby, taHasError]
    by_cases h : taErrorMessages q = []
    · simp [h]
    · simp [h, List.length_pos.mpr h]

/-- C9: a delete (`value === undefined`) through `updateCustomProperty`
that leaves no remaining entries stores `undefined` for
`description.customProperties` (modelled as `none`), not an empty
array. -/
theorem delete_last_property_stores_undefined (cur : CustomPropsVal) (pname : String)
    (h : (toCurrentArray cur).filter (fun item => !(item.property = some pname : Bool)) = []) :
    updateCustomProperty cur pname .undef = none := by
  unfold updateCustomProperty
  simp [h]

/-- C9 witness: deleting the only custom property of a one-element array
stores `undefined`. -/
theorem delete_last_property_stores_undefined_witness :
    updateCustomProperty (.arr [⟨some "a", .num 1⟩]) "a" .undef = none :=
  delete_last_property_stores_undefined (.arr [⟨some "a", .num 1⟩]) "a" (by decide)

/-- C3 counterexample: a required whitespace-only value in
`ValidatedInput` does NOT always show exactly one message — with a
`minimum` constraint the numeric check also fires, because JS `Number`
coerces a whitespace-only string to `0` (the source only guards against
the strictly empty string). -/
theorem required_single_message_counterexample :
    ({ name := "f", value := .str " ", required := true, minimum := some 1 } : InputProps).required = true ∧
      jsTrim (jsToString ({ name := "f", value := .str " ", required := true, minimum := some 1 } : InputProps).value) = "" ∧
      errorMessages (RegexEnv.mk (fun _ => none))
          { name := "f", value := .str " ", required := true, minimum := some 1 } =
        ["This field is required", "Minimum value is 1"] := by
  exact ⟨rfl, by decide, by decide⟩

/-- C3 (amended): with no external errors, a required `ValidatedInput`
whose value is absent, null or the empty string shows exactly one
"This field is required" message, and so does a whitespace-only value
provided no `minimum`/`maximum` constraint is set (a whitespace-only
string coerces to the number `0`, so the numeric checks can also fire on
it); a required `ValidatedTextarea` whose trimmed value is empty always
shows exactly that one message. -/
theorem required_empty_single_message (env : RegexEnv) (p : InputProps) (q : TextareaProps)
    (hskip : p.skipInternalValidation = false) (hreq : p.required = true)
    (hext : p.externalErrors = [])
    (hval : p.value = .undef ∨ p.value = .nullV ∨ p.value = .str "" ∨
      ∃ s, p.value = .str s ∧ s ≠ "" ∧ jsTrim s = "" ∧ p.minimum = none ∧ p.maximum = none)
    (hqreq : q.required = true) (hqtr : taTrimmed q = "") :
    errorMessages env p = ["This field is required"] ∧
      taErrorMessages q = ["This field is required"] := by
  constructor
  · rcases hval with h | h | h | ⟨s, hv, hs, hst, hmin, hmax⟩
    · have htruthy : truthy p.value = false := by rw [h]; rfl
      have htr : trimmedValue p = "" := by simp [trimmedValue, htruthy]
      have hnan : numericValue p = none := by rw [numericValue, h]
      exact errorMessages_of_checks env p
        (by simp [hasInternalError, hskip, hreq, htruthy])
        (hasPatternError_of_not_truthy env p htruthy)
        (hasMinLengthError_of_trimmed_empty p htr)
        (hasMaxLengthError_of_trimmed_empty p htr)
        (hasMinimumError_of_nan p hnan)
        (hasMaximumError_of_nan p hnan) hext
    · have htruthy : truthy p.value = false := by rw [h]; rfl
      have htr : trimmedValue p = "" := by simp [trimmedValue, htruthy]
      have hnan : numericValue p = none := by rw [numericValue, h]
      exact errorMessages_of_checks env p
        (by simp [hasInternalError, hskip, hreq, htruthy])
        (hasPatternError_of_not_truthy env p htruthy)
        (hasMinLengthError_of_trimmed_empty p htr)
        (hasMaxLengthError_of_trimmed_empty p htr)
        (hasMinimumError_of_nan p hnan)
        (hasMaximumError_of_nan p hnan) hext
    · have htruthy : truthy p.value = false := by rw [h]; rfl
      have htr : trimmedValue p = "" := by simp [trimmedValue, htruthy]
      have hnan : numericValue p = none := by rw [numericValue, h]; rfl
      exact errorMessages_of_checks env p
        (by simp [hasInternalError, hskip, hreq, htruthy])
        (hasPatternError_of_not_truthy env p htruthy)
        (hasMinLengthError_of_trimmed_empty p htr)
        (hasMaxLengthError_of_trimmed_empty p htr)
        (hasMinimumError_of_nan p hnan)
        (hasMaximumError_of_nan p hnan) hext
    · have htr : trimmedValue p = "" := trimmedValue_eq_empty_of_trim_empty p s hv hst
      exact errorMessages_of_checks env p
        (by simp [hasInternalError, hskip, hreq, hv, truthy, jsToString, hst])
        (hasPatternError_of_trim_empty env p s hv hst)
        (hasMinLengthError_of_trimmed_empty p htr)
        (hasMaxLengthError_of_trimmed_empty p htr)
        (hasMinimumError_of_no_min p hmin)
        (hasMaximumError_of_no_max p hmax) hext
  · simp [taErrorMessages, hqtr, hqreq]

/-- C3 witness: a required input with an absent value and a required
textarea with a whitespace-only value each show exactly the single
required-field message. -/
theorem required_empty_single_message_witness :
    errorMessages (RegexEnv.mk (fun _ => none))
        { name := "f", value := .undef, required := true } = ["This field is required"] ∧
      taErrorMessages { name := "g", value := some " ", required := true } =
        ["This field is required"] :=
  required_empty_single_message (RegexEnv.mk (fun _ => none))
    { name := "f", value := .undef, required := true }
    { name := "g", value := some " ", required := true }
    rfl rfl rfl (Or.inl rfl) rfl (by decide)

/-- C6: the per-field checks of `ValidatedInput` are independent boolean
checks — whether each one fires depends only on the value (and the
skip-validation escape hatch) and that check's own constraint option;
two props objects that agree on the value and on a check's own option
make that check fire identically, whatever the other constraint options
are. -/
theorem checks_independent (env : RegexEnv) (p p' : InputProps)
    (hv : p.value = p'.value)
    (hskip : p.skipInternalValidation = p'.skipInternalValidation) :
    (p.required = p'.required → hasInternalError p = hasInternalError p') ∧
      (p.pattern = p'.pattern → hasPatternError env p = hasPatternError env p') ∧
      (p.minLength = p'.minLength → hasMinLengthError p = hasMinLengthError p') ∧
      (p.maxLength = p'.maxLength → hasMaxLengthError p = hasMaxLengthError p') ∧
      (p.minimum = p'.minimum → hasMinimumError p = hasMinimumError p') ∧
      (p.maximum = p'.maximum → hasMaximumError p = hasMaximumError p') := by
  have htr : trimmedValue p = trimmedValue p' := by
    unfold trimmedValue
    rw [hv]
  have hnum : numericValue p = numericValue p' := by
    unfold numericValue
    rw [hv]
  refine ⟨?_, ?_, ?_, ?_, ?_, ?_⟩ <;> intro h
  · unfold hasInternalError
    rw [hv, hskip, h]
  · unfold hasPatternError
    rw [hv, hskip, h]
  · unfold hasMinLengthError
    rw [hskip, h, htr]
  · unfold hasMaxLengthError
    rw [hskip, h, htr]
  · unfold hasMinimumError
    rw [hskip, h, hnum]
  · unfold hasMaximumError
    rw [hskip, h, hnum]

/-- C6 witness: two concrete props objects sharing the value, `required`
and `minLength` but differing in `name`, `pattern`, `maximum` and
`externalErrors` make the required and minLength checks fire
identically. -/
theorem checks_independent_witness :
    hasInternalError ({ name := "a", value := .str "hi", required := true, minLength := some 5 } : InputProps) =
        hasInternalError ({ name := "b", value := .str "hi", required := true, minLength := some 5, pattern := some "x", maximum := some 0, externalErrors := ["e"] } : InputProps) ∧
      hasMinLengthError ({ name := "a", value := .str "hi", required := true, minLength := some 5 } : InputProps) =
        hasMinLengthError ({ name := "b", value := .str "hi", required := true, minLength := some 5, pattern := some "x", maximum := some 0, externalErrors := ["e"] } : InputProps) :=
  ⟨(checks_independent (RegexEnv.mk (fun _ => none))
      { name := "a", value := .str "hi", required := true, minLength := some 5 }
      { name := "b", value := .str "hi", required := true, minLength := some 5, pattern := some "x", maximum := some 0, externalErrors := ["e"] }
      rfl rfl).1 rfl,
    (checks_independent (RegexEnv.mk (fun _ => none))
      { name := "a", value := .str "hi", required := true, minLength := some 5 }
      { name := "b", value := .str "hi", required := true, minLength := some 5, pattern := some "x", maximum := some 0, externalErrors := ["e"] }
      rfl rfl).2.2.1 rfl⟩

/-- C10: on a non-empty, whitespace-only value the pattern, min-length
and max-length checks of `ValidatedInput` produce no error (they apply
only when the trimmed value is non-empty), while the required check —
with internal validation on — does flag the value as empty; a
`ValidatedTextarea` with such a value shows the required message exactly
when it is required and no length message. -/
theorem whitespace_only_skips_length_and_pattern (env : RegexEnv) (p : InputProps)
    (q : TextareaProps) (s t : String)
    (hp : p.value = .str s) (hs : s ≠ "") (hst : jsTrim s = "")
    (hq : q.value = some t) (_ht : t ≠ "") (htt : jsTrim t = "") :
    hasPatternError env p = false ∧ hasMinLengthError p = false ∧
      hasMaxLengthError p = false ∧
      (p.skipInternalValidation = false → p.required = true → hasInternalError p = true) ∧
      taErrorMessages q = (if q.required then ["This field is required"] else []) := by
  have htr : trimmedValue p = "" := trimmedValue_eq_empty_of_trim_empty p s hp hst
  have hqtr : taTrimmed q = "" := by simp [taTrimmed, hq, htt]
  refine ⟨hasPatternError_of_trim_empty env p s hp hst,
    hasMinLengthError_of_trimmed_empty p htr,
    hasMaxLengthError_of_trimmed_empty p htr, ?_, ?_⟩
  · intro h1 h2
    simp [hasInternalError, h1, h2, hp, truthy, hs, jsToString, hst]
  · cases hr : q.required <;> simp [taErrorMessages, hqtr, hr]

/-- C10 witness: a single-space value in a required input with length
constraints triggers only the required check, and a single-space value
in a required textarea shows only the required message. -/
theorem whitespace_only_skips_length_and_pattern_witness :
    hasPatternError (RegexEnv.mk (fun _ => some (fun _ => false)))
        { name := "f", value := .str " ", required := true, pattern := some "a+", minLength := some 2, maxLength := some 0 } = false ∧
      hasMinLengthError ({ name := "f", value := .str " ", required := true, pattern := some "a+", minLength := some 2, maxLength := some 0 } : InputProps) = false ∧
      hasMaxLengthError ({ name := "f", value := .str " ", required := true, pattern := some "a+", minLength := some 2, maxLength := some 0 } : InputProps) = false ∧
      hasInternalError ({ name := "f", value := .str " ", required := true, pattern := some "a+", minLength := some 2, maxLength := some 0 } : InputProps) = true ∧
      taErrorMessages { name := "g", value := some " ", required := true, minLength := some 2 } =
        ["This field is required"] := by
  have h := whitespace_only_skips_length_and_pattern
    (RegexEnv.mk (fun _ => some (fun _ => false)))
    { name := "f", value := .str " ", required := true, pattern := some "a+", minLength := some 2, maxLength := some 0 }
    { name := "g", value := some " ", required := true, minLength := some 2 }
    " " " " rfl (by decide) (by decide) rfl (by decide) (by decide)
  exact ⟨h.1, h.2.1, h.2.2.1, h.2.2.2.1 rfl rfl, h.2.2.2.2⟩

/-- C1 counterexample: the array-to-lookup-to-array round trip is not
entry-preserving for every collection — with two items named "a" the
first item's entry is lost (the lookup keeps only the last value). -/
theorem representations_roundtrip_counterexample :
    CPItem.mk (some "a") (.num 1) ∈
        [CPItem.mk (some "a") (.num 1), CPItem.mk (some "a") (.num 2)] ∧
      entriesToArray (customPropertiesLookup
          (.arr [CPItem.mk (some "a") (.num 1), CPItem.mk (some "a") (.num 2)])) =
        [CPItem.mk (some "a") (.num 2)] ∧
      entriesToArray (customPropertiesLookup
          (.arr [CPItem.mk (some "a") (.num 1), CPItem.mk (some "a") (.num 2)])) ≠
        [CPItem.mk (some "a") (.num 1), CPItem.mk (some "a") (.num 2)] ∧
      CPItem.mk (some "a") (.num 1) ∉ entriesToArray (customPropertiesLookup
          (.arr [CPItem.mk (some "a") (.num 1), CPItem.mk (some "a") (.num 2)])) := by
  decide

/-- C1 (amended): the two representations round-trip for every collection
whose property names are defined and pairwise distinct — converting such
an array to a lookup with `customPropertiesLookup` and back with
`updateCustomProperty`'s `Object.entries` normalization is the identity,
and converting a (duplicate-free) object to an array and back yields the
same object; with duplicate or absent property names the round trip
merges entries, keeping the last value. -/
theorem representations_roundtrip (pl : List (String × JSVal))
    (h : (pl.map Prod.fst).Nodup) :
    entriesToArray (customPropertiesLookup (.arr (entriesToArray pl))) = entriesToArray pl ∧
      customPropertiesLookup (.arr (entriesToArray pl)) = pl := by
  have hcore := lookup_entriesToArray pl h
  exact ⟨by rw [hcore], hcore⟩

/-- C1 witness: a two-entry collection with distinct names round-trips in
both directions. -/
theorem representations_roundtrip_witness :
    entriesToArray (customPropertiesLookup
        (.arr (entriesToArray [("a", .num 1), ("b", .str "x")]))) =
        entriesToArray [("a", .num 1), ("b", .str "x")] ∧
      customPropertiesLookup (.arr (entriesToArray [("a", .num 1), ("b", .str "x")])) =
        [("a", .num 1), ("b", .str "x")] :=
  representations_roundtrip [("a", .num 1), ("b", .str "x")] (by decide)

/-- C5 counterexample: with duplicate property names an item's name does
not map to that item's value — the lookup keeps the last assignment, so
the first "a" item's value 1 is not what "a" maps to. -/
theorem lookup_maps_each_item_counterexample :
    CPItem.mk (some "a") (.num 1) ∈
        [CPItem.mk (some "a") (.num 1), CPItem.mk (some "a") (.num 2)] ∧
      (CPItem.mk (some "a") (.num 1)).property = some "a" ∧
      objGet (customPropertiesLookup
          (.arr [CPItem.mk (some "a") (.num 1), CPItem.mk (some "a") (.num 2)])) "a" ≠
        some (.num 1) := by
  decide

/-- C5 (amended): `customPropertiesLookup` returns an object input as-is
and the empty object for an absent input; for an array whose property
names are defined and pairwise distinct, each item's name maps to its
value in the produced lookup (with duplicates the last item's value
wins). -/
theorem lookup_maps_each_item (o : JSObject) (pl : List (String × JSVal))
    (h : (pl.map Prod.fst).Nodup) :
    customPropertiesLookup (.obj o) = o ∧
      customPropertiesLookup .undefOrNull = [] ∧
      ∀ kv ∈ pl, objGet (customPropertiesLookup (.arr (entriesToArray pl))) kv.1 = some kv.2 := by
  refine ⟨rfl, rfl, ?_⟩
  intro kv hm
  obtain ⟨k, v⟩ := kv
  rw [lookup_entriesToArray pl h]
  exact objGet_of_mem_nodup h hm

/-- C5 witness: an object input is returned as-is, and in the lookup of a
concrete duplicate-free array each name maps to its item's value. -/
theorem lookup_maps_each_item_witness :
    customPropertiesLookup (.obj [("k", .str "v")]) = [("k", .str "v")] ∧
      customPropertiesLookup .undefOrNull = [] ∧
      objGet (customPropertiesLookup
          (.arr (entriesToArray [("a", .num 1), ("b", .num 2)]))) "b" = some (.num 2) :=
  ⟨(lookup_maps_each_item [("k", .str "v")] [("a", .num 1), ("b", .num 2)] (by decide)).1,
    (lookup_maps_each_item [("k", .str "v")] [("a", .num 1), ("b", .num 2)] (by decide)).2.1,
    (lookup_maps_each_item [("k", .str "v")] [("a", .num 1), ("b", .num 2)] (by decide)).2.2
      ("b", .num 2) (by decide)⟩

/-- C8: `updateCustomProperty` is frame-preserving — in every case the
entries whose property name differs from the updated one are unchanged
and keep their relative order; a delete removes exactly the entries for
the name; a set with a defined value either replaces, in place, an entry
whose property is the name, or — when no entry has the name — appends
the new entry at the end. -/
theorem updateCustomProperty_frame (cur : CustomPropsVal) (pname : String) (v : JSVal) :
    ((updateCustomProperty cur pname v).getD []).filter
        (fun item => !(item.property = some pname : Bool)) =
      (toCurrentArray cur).filter (fun item => !(item.property = some pname : Bool)) ∧
      (v = .undef →
        (updateCustomProperty cur pname v).getD [] =
          (toCurrentArray cur).filter (fun item => !(item.property = some pname : Bool))) ∧
      (v ≠ .undef →
        (∃ i, ∃ h : i < (toCurrentArray cur).length,
            ((toCurrentArray cur).get ⟨i, h⟩).property = some pname ∧
              updateCustomProperty cur pname v =
                some ((toCurrentArray cur).set i ⟨some pname, v⟩)) ∨
          ((∀ item ∈ toCurrentArray cur, item.property ≠ some pname) ∧
            updateCustomProperty cur pname v =
              some (toCurrentArray cur ++ [⟨some pname, v⟩]))) := by
  by_cases hv : v = .undef
  · subst hv
    have hdel : (updateCustomProperty cur pname .undef).getD [] =
        (toCurrentArray cur).filter (fun item => !(item.property = some pname : Bool)) := by
      rw [updateCustomProperty_delete_eq]
      by_cases hl :
          ((toCurrentArray cur).filter (fun item => !(item.property = some pname : Bool))).length > 0
      · rw [if_pos hl]
        rfl
      · rw [if_neg hl]
        have : ((toCurrentArray cur).filter
            (fun item => !(item.property = some pname : Bool))).length = 0 :=
          Nat.eq_zero_of_not_pos hl
        rw [List.length_eq_zero.mp this]
        rfl
    refine ⟨?_, fun _ => hdel, fun hne => absurd rfl hne⟩
    rw [hdel, List.filter_filter]
    simp
  · rcases hidx : jsFindIndex (fun item => (item.property = some pname : Bool))
        (toCurrentArray cur) with _ | i
    · -- no entry for pname: append
      have hupd : updateCustomProperty cur pname v =
          some (toCurrentArray cur ++ [⟨some pname, v⟩]) := by
        rw [updateCustomProperty_set_eq cur pname v hv, hidx]
      have hall := jsFindIndex_eq_none _ _ hidx
      refine ⟨?_, fun h => absurd h hv, fun _ => Or.inr ⟨?_, hupd⟩⟩
      · rw [hupd]
        simp only [Option.getD_some, List.filter_append]
        simp
      · intro item hm
        have := hall item hm
        simpa using this
    · -- entry found at index i: replace in place
      obtain ⟨hlt, hpred⟩ := jsFindIndex_eq_some _ _ i hidx
      have hprop : ((toCurrentArray cur).get ⟨i, hlt⟩).property = some pname :=
        of_decide_eq_true hpred
      have hupd : updateCustomProperty cur pname v =
          some ((toCurrentArray cur).set i ⟨some pname, v⟩) := by
        rw [updateCustomProperty_set_eq cur pname v hv, hidx]
      refine ⟨?_, fun h => absurd h hv, fun _ => Or.inl ⟨i, hlt, hprop, hupd⟩⟩
      rw [hupd]
      simp only [Option.getD_some]
      exact filter_set_not_kept _ (toCurrentArray cur) i ⟨some pname, v⟩ hlt
        (by simpa using hprop) (by simp)

/-- C8 witness: setting "b" on a concrete two-entry array replaces the
"b" entry in place and leaves the "a" entry untouched in position. -/
theorem updateCustomProperty_frame_witness :
    ((updateCustomProperty (.arr [⟨some "a", .num 1⟩, ⟨some "b", .num 2⟩]) "b" (.num 9)).getD []).filter
        (fun item => !(item.property = some "b" : Bool)) =
      (toCurrentArray (.arr [⟨some "a", .num 1⟩, ⟨some "b", .num 2⟩])).filter
        (fun item => !(item.property = some "b" : Bool)) ∧
      ((∃ i, ∃ h : i < (toCurrentArray (.arr [⟨some "a", .num 1⟩, ⟨some "b", .num 2⟩])).length,
          ((toCurrentArray (.arr [⟨some "a", .num 1⟩, ⟨some "b", .num 2⟩])).get ⟨i, h⟩).property = some "b" ∧
            updateCustomProperty (.arr [⟨some "a", .num 1⟩, ⟨some "b", .num 2⟩]) "b" (.num 9) =
              some ((toCurrentArray (.arr [⟨some "a", .num 1⟩, ⟨some "b", .num 2⟩])).set i ⟨some "b", .num 9⟩)) ∨
        ((∀ item ∈ toCurrentArray (.arr [⟨some "a", .num 1⟩, ⟨some "b", .num 2⟩]),
            item.property ≠ some "b") ∧
          updateCustomProperty (.arr [⟨some "a", .num 1⟩, ⟨some "b", .num 2⟩]) "b" (.num 9) =
            some (toCurrentArray (.arr [⟨some "a", .num 1⟩, ⟨some "b", .num 2⟩]) ++ [⟨some "b", .num 9⟩]))) :=
  ⟨(updateCustomProperty_frame (.arr [⟨some "a", .num 1⟩, ⟨some "b", .num 2⟩]) "b" (.num 9)).1,
    (updateCustomProperty_frame (.arr [⟨some "a", .num 1⟩, ⟨some "b", .num 2⟩]) "b" (.num 9)).2.2
      (by decide)⟩

end DCEditor
